import Mathlib

/-!
Verification of the repository-orm core.

Shallow embedding of the `repository-orm` Python library
(`src/repository_orm/model.py`, `src/repository_orm/adapters/data/{abstract,
fake,cache,tinydb}.py` and the historical `src/repository_orm/adapters/
{abstract,fake}.py`), together with theorems settling the specification
claims about entity merging, the repository cache, add/get/delete/commit,
auto-increment ids, last/first, and attribute search.

Conventions of the embedding:
* Python attribute values are modelled by the closed universe `Value`
  (ints, strings, booleans, lists of strings, `None`), which covers every
  attribute type the library's entities and tests use.
* Python dicts keyed by attribute name are insertion-ordered association
  lists (`Dict`); `dictInsert` has Python's update-in-place-or-append
  semantics.
* A pydantic model class is a `Model` value: its name, its declared fields
  (name, kind, declared default) and its `_skip_on_merge` list.  A live
  pydantic instance is an `Entity`: its class, its field values (`attrs`,
  always exactly the declared fields, in declaration order) and its
  `_defined_values` private dict.
* pydantic v1 equality (`BaseModel.__eq__`) compares the class and the
  declared field values and ignores private attributes; this is `pyEq`.
* Exceptions are modelled with `Except PyError`.
-/

/-- Universe of Python attribute values used by the library's entities. -/
inductive Value where
  | vint (n : Int)
  | vstr (s : String)
  | vbool (b : Bool)
  | vlist (xs : List String)
  | vnone
deriving DecidableEq, Repr

/-- A Python dict from attribute names to values, as an insertion-ordered
association list with unique keys (maintained by `dictInsert`). -/
abbrev Dict := List (String × Value)

/-- Look a key up in a dict (first binding). -/
def dictLookup (d : Dict) (k : String) : Option Value :=
  match d.find? (fun kv => kv.1 == k) with
  | some kv => some kv.2
  | none => none

/-- Embeds `k in d` for a Python dict. -/
def dictHasKey (d : Dict) (k : String) : Bool :=
  (dictLookup d k).isSome

/-- Embeds `d[k] = v` for a Python dict: update the existing binding in place,
otherwise append the new binding (insertion order preserved). -/
def dictInsert (d : Dict) (k : String) (v : Value) : Dict :=
  match d with
  | [] => [(k, v)]
  | kv :: rest =>
      if kv.1 == k then (k, v) :: rest else kv :: dictInsert rest k v

/-- Update the binding of `k` only if `k` is already present (used for
pydantic field assignment: assigning an undeclared field raises instead of
creating it, see `Entity.setattr`). -/
def dictUpdate (d : Dict) (k : String) (v : Value) : Dict :=
  match d with
  | [] => []
  | kv :: rest =>
      if kv.1 == k then (k, v) :: rest else kv :: dictUpdate rest k v

/-- Declared kind of a pydantic field, as the generic search code reads it
from `model.schema()["properties"]`: a string field, an int field, a bool
field, or a list-of-strings field (`"type": "array"`). -/
inductive FieldKind where
  | str
  | int
  | bool
  | strList
deriving DecidableEq, Repr

/-- One declared field of an entity model: its name, kind and declared
default value. -/
structure FieldSpec where
  name : String
  kind : FieldKind
  default : Value
deriving DecidableEq, Repr

/-- An entity model class (`model.py`): its title (`model_name`), declared
fields (always including `id_`) and its `_skip_on_merge` class list. -/
structure Model where
  name : String
  fields : List FieldSpec
  skipOnMerge : List String
deriving DecidableEq, Repr

/-- The declared field names of a model, in declaration order. -/
def Model.fieldNames (m : Model) : List String :=
  m.fields.map FieldSpec.name

/-- A live entity instance: its class, its field values (exactly the
declared fields, in declaration order) and its `_defined_values` dict
(`model.py`, `Entity.__init__` / `Entity.__setattr__`). -/
structure Entity where
  model : Model
  attrs : Dict
  definedValues : Dict
deriving DecidableEq, Repr

/-- Embeds `Entity.__init__` (`model.py` lines 31-34): every declared field takes
the constructor argument when supplied and the declared default otherwise;
`_defined_values` records exactly the supplied arguments. -/
def mkEntity (m : Model) (data : Dict) : Entity :=
  { model := m
    attrs := m.fields.map (fun f => (f.name, (dictLookup data f.name).getD f.default))
    definedValues := data }

/-- Embeds `Entity.__setattr__` (`model.py` lines 61-65): record the assignment in
`_defined_values`, then assign the field.  pydantic only assigns declared
fields (assigning an undeclared one raises), so `attrs` is updated only
where the key already exists. -/
def Entity.setattr (e : Entity) (k : String) (v : Value) : Entity :=
  { e with
    definedValues := dictInsert e.definedValues k v
    attrs := dictUpdate e.attrs k v }

/-- The entity's `id_` field. -/
def Entity.idVal (e : Entity) : Value :=
  (dictLookup e.attrs "id_").getD .vnone

/-- Python `str()` of a value, as used by `Entity.__lt__`/`__gt__` on ids. -/
def Value.pyStr : Value → String
  | .vint n => toString n
  | .vstr s => s
  | .vbool b => if b then "True" else "False"
  | .vlist xs => toString xs
  | .vnone => "None"

/-- Embeds `Entity.__lt__` (`model.py` lines 36-44): numeric comparison when both
ids are ints, otherwise comparison of `str(id_)`. -/
def entLt (a b : Entity) : Bool :=
  match a.idVal, b.idVal with
  | .vint m, .vint n => m < n
  | x, y => x.pyStr < y.pyStr

/-- Embeds `Entity.__gt__` (`model.py` lines 46-54). -/
def entGt (a b : Entity) : Bool :=
  match a.idVal, b.idVal with
  | .vint m, .vint n => n < m
  | x, y => y.pyStr < x.pyStr

/-- pydantic v1 `BaseModel.__eq__`: same class and equal declared field
values; private attributes (`_defined_values`) are not compared. -/
def pyEq (a b : Entity) : Bool :=
  decide (a.model = b.model ∧ a.attrs = b.attrs)

/-- Embeds `Entity.merge` (`model.py` lines 72-96): reject a different model or a
different id, then `setattr` every `_defined_values` item of `other` that
is not in `_skip_on_merge` onto `self`, and return the mutated `self`. -/
def Entity.merge (self other : Entity) : Except String Entity :=
  if other.model ≠ self.model then
    .error "Can't merge objects of different models"
  else if self.idVal ≠ other.idVal then
    .error "Can't merge two entities with different ids"
  else
    .ok (other.definedValues.foldl
      (fun acc kv =>
        if kv.1 ∈ self.model.skipOnMerge then acc else acc.setattr kv.1 kv.2)
      self)

/-- Embeds `Entity.clear_defined_values` (`model.py` lines 103-109) resets the
`_defined_values` dict.  The Python method returns `None`; the repository
layer models that return value separately (`PyVal`). -/
def Entity.clearDefinedValues (e : Entity) : Entity :=
  { e with definedValues := [] }

/-- A model is well-formed when its declared field names are distinct. -/
def wfModel (m : Model) : Bool :=
  decide m.fieldNames.Nodup

/-- A live entity is well-formed when its field values are exactly the
declared fields in order, `_defined_values` has distinct keys, and every
`_defined_values` entry agrees with the current field value (true for
freshly constructed entities and preserved by `setattr`). -/
def wfEntity (e : Entity) : Bool :=
  decide (e.attrs.map Prod.fst = e.model.fieldNames) &&
  decide (e.definedValues.map Prod.fst).Nodup &&
  e.definedValues.all (fun kv => dictLookup e.attrs kv.1 == some kv.2)

/-- Python exceptions raised by the code paths under study
(`exceptions.py` plus the built-in `TypeError`/`AttributeError`/
`ValueError`). -/
inductive PyError where
  | entityNotFoundError (msg : String)
  | tooManyEntitiesError (msg : String)
  | autoIncrementError (msg : String)
  | typeError (msg : String)
  | attributeError (msg : String)
  | valueError (msg : String)
  | indexError (msg : String)
deriving DecidableEq, Repr

/-- The outcome raised `EntityNotFoundError`. -/
def isNotFound {α : Type} : Except PyError α → Bool
  | .error (.entityNotFoundError _) => true
  | _ => false

/-- The outcome raised `TooManyEntitiesError`. -/
def isTooMany {α : Type} : Except PyError α → Bool
  | .error (.tooManyEntitiesError _) => true
  | _ => false

/-- The outcome raised `TypeError`. -/
def isTypeErr {α : Type} : Except PyError α → Bool
  | .error (.typeError _) => true
  | _ => false

/-- The outcome raised `AttributeError`. -/
def isAttrErr {α : Type} : Except PyError α → Bool
  | .error (.attributeError _) => true
  | _ => false

/-- The outcome raised `AutoIncrementError`. -/
def isAutoIncErr {α : Type} : Except PyError α → Bool
  | .error (.autoIncrementError _) => true
  | _ => false

/-- Generic lookup in a Python dict modelled as an association list. -/
def alistLookup {α β : Type} [DecidableEq α] (l : List (α × β)) (k : α) : Option β :=
  match l.find? (fun kv => decide (kv.1 = k)) with
  | some kv => some kv.2
  | none => none

/-- Embeds `d[k] = v`: update in place or append (insertion order preserved). -/
def alistInsert {α β : Type} [DecidableEq α] (l : List (α × β)) (k : α) (v : β) :
    List (α × β) :=
  match l with
  | [] => [(k, v)]
  | kv :: rest =>
      if kv.1 = k then (k, v) :: rest else kv :: alistInsert rest k v

/-- Embeds `d.setdefault(k, v)`: insert only when the key is absent. -/
def alistSetdefault {α β : Type} [DecidableEq α] (l : List (α × β)) (k : α) (v : β) :
    List (α × β) :=
  match alistLookup l k with
  | some _ => l
  | none => l ++ [(k, v)]

/-- Embeds `d.pop(k, None)`: drop the binding when present, never raising. -/
def alistRemoveKey {α β : Type} [DecidableEq α] (l : List (α × β)) (k : α) :
    List (α × β) :=
  match l with
  | [] => []
  | kv :: rest =>
      if kv.1 = k then rest else kv :: alistRemoveKey rest k

/-- Embeds `d.values()` in insertion order. -/
def alistValues {α β : Type} (l : List (α × β)) : List β :=
  l.map Prod.snd

/-- A per-model table of stored entities keyed by `id_`
(`FakeRepositoryDB = Dict[Type[Entity], Dict[EntityID, Entity]]`). -/
abbrev Table := List (Value × Entity)

/-- A whole fake-repository store, keyed by entity model. -/
abbrev Store := List (Model × Table)

/-- The repository cache (`data/cache.py`): a dict keyed by entity type,
each entry a dict from `id_` to the cached snapshot. -/
abbrev Cache := List (Model × Table)

/-- Embeds `Cache.add` for one entity (`data/cache.py` lines 31-40):
`setdefault` the type entry, then `setdefault` the id to `entity.copy()`.
A pydantic `copy()` is shallow and value-equal to the entity, so at this
value level the snapshot is the entity itself (aliasing of mutable
attribute values is studied separately in the heap model below). -/
def cacheAddOne (c : Cache) (e : Entity) : Cache :=
  let entry := (alistLookup c e.model).getD []
  alistInsert c e.model (alistSetdefault entry e.idVal e)

/-- Embeds `Cache.add` for a list of entities. -/
def cacheAddList (c : Cache) (es : List Entity) : Cache :=
  es.foldl cacheAddOne c

/-- Embeds `Cache.get` (`data/cache.py` lines 42-44); `none` models the
`KeyError` of a missing entry. -/
def cacheGet (c : Cache) (e : Entity) : Option Entity :=
  (alistLookup c e.model).bind (fun entry => alistLookup entry e.idVal)

/-- Embeds `Cache.entity_has_not_changed` (`data/cache.py` lines 46-53): a cached
snapshot exists and compares equal to the entity. -/
def entityHasNotChanged (c : Cache) (e : Entity) : Bool :=
  match cacheGet c e with
  | some v => pyEq v e
  | none => false

/-- State of the exported `FakeRepository`
(`data/fake.py`): the committed store `entities`, the staged store
`new_entities` and the repository cache. -/
structure FakeRepo where
  entities : Store
  newEntities : Store
  cache : Cache
deriving DecidableEq, Repr

/-- A freshly constructed `FakeRepository()`. -/
def emptyFakeRepo : FakeRepo := ⟨[], [], []⟩

/-- Python `sorted` on entities, which compares with `Entity.__lt__`. -/
def sortEnt (l : List Entity) : List Entity :=
  l.insertionSort (fun a b => entLt b a = false)

/-- Embeds `FakeRepository._all` (`data/fake.py` lines 103-118): the sorted
committed entities of the model; a missing model key is suppressed into
the empty list. -/
def fakeAllU (st : FakeRepo) (m : Model) : List Entity :=
  sortEnt (alistValues ((alistLookup st.entities m).getD []))

/-- Embeds `Repository.all` (`data/abstract.py` lines 169-185): sort the
backend's `_all` result and add every result to the cache. -/
def repoAll (st : FakeRepo) (m : Model) : FakeRepo × List Entity :=
  let es := sortEnt (fakeAllU st m)
  ({ st with cache := cacheAddList st.cache es }, es)

/-- CPython `max(x :: xs)` scanning with `__gt__`. -/
def pyMax (x : Entity) (xs : List Entity) : Entity :=
  xs.foldl (fun acc y => if entGt y acc then y else acc) x

/-- CPython `min(x :: xs)` scanning with `__lt__`. -/
def pyMin (x : Entity) (xs : List Entity) : Entity :=
  xs.foldl (fun acc y => if entLt y acc then y else acc) x

/-- Embeds `max` over a possibly empty list: `ValueError` when empty. -/
def pyMaxList : List Entity → Except PyError Entity
  | [] => .error (.valueError "max() arg is an empty sequence")
  | x :: xs => .ok (pyMax x xs)

/-- The `EntityNotFoundError` message built by
`Repository._model_not_found` (`data/abstract.py` lines 331-349). -/
def modelNotFoundMsg (m : Model) (appendStr : String) : String :=
  "There are no entities of type " ++ m.name ++ " in the repository" ++
    appendStr ++ "."

/-- Embeds `Repository.last` (`data/abstract.py` lines 275-292), reached from
`FakeRepository.last` via `super()`: the maximum of `self.all(models)`, or
`EntityNotFoundError` when `max` raises `ValueError` on an empty list. -/
def absLast (st : FakeRepo) (m : Model) : FakeRepo × Except PyError Entity :=
  let (st1, es) := repoAll st m
  (st1, match es with
        | [] => .error (.entityNotFoundError (modelNotFoundMsg m ""))
        | x :: xs => .ok (pyMax x xs))

/-- Embeds `Repository.first` (`data/abstract.py` lines 294-311), which
`FakeRepository` does not override: the minimum of `self.all(models)`,
reading only committed entities. -/
def repoFirst (st : FakeRepo) (m : Model) : FakeRepo × Except PyError Entity :=
  let (st1, es) := repoAll st m
  (st1, match es with
        | [] => .error (.entityNotFoundError (modelNotFoundMsg m ""))
        | x :: xs => .ok (pyMin x xs))

/-- The message of the `TypeError` raised by a three-argument call to the
two-parameter `warn_on_models`. -/
def warnArityMsg : String :=
  "warn_on_models() takes 2 positional arguments but 3 were given"

/-- In `data/fake.py`, lines 208 and 217 call
`warn_on_models(models, "last", model)` with three arguments, while
`data/abstract.py` line 365 declares `warn_on_models(models, method)` with
two parameters; Python therefore raises `TypeError` at the call site. -/
def warnOnModelsCall3 : Except PyError (Option Model) :=
  .error (.typeError warnArityMsg)

/-- Embeds `FakeRepository._staged_entities` (`data/fake.py` lines 226-232);
`none` models the `KeyError` of a model absent from `new_entities`. -/
def stagedEntitiesU (st : FakeRepo) (m : Model) : Option (List Entity) :=
  (alistLookup st.newEntities m).map alistValues

/-- Embeds `FakeRepository.last` (`data/fake.py` lines 189-224): take
`super().last(model)`, then consult the staged entities — but both
branches first run the three-argument `warn_on_models` call, so the
staged-entity logic that follows it is unreachable. -/
def fakeLast (st : FakeRepo) (m : Model) : FakeRepo × Except PyError Entity :=
  let (st1, r) := absLast st m
  match r with
  | .error (.entityNotFoundError msg) =>
      (st1, warnOnModelsCall3.bind (fun _ =>
        match stagedEntitiesU st1 m with
        | none => .error (.entityNotFoundError msg)
        | some staged => pyMaxList staged))
  | .error e => (st1, .error e)
  | .ok lastIndex =>
      (st1, warnOnModelsCall3.bind (fun _ =>
        match stagedEntitiesU st1 m with
        | none => .ok lastIndex
        | some staged =>
            (pyMaxList staged).map (fun s => if entGt s lastIndex then s else lastIndex)))

/-- Embeds `Repository.next_id` (`data/abstract.py` lines 313-329) over the
`FakeRepository`: `self.last(type(entity))` dispatches to
`FakeRepository.last`; only `EntityNotFoundError` is turned into `0`. -/
def nextIdF (st : FakeRepo) (m : Model) : FakeRepo × Except PyError Int :=
  let (st1, r) := fakeLast st m
  match r with
  | .error (.entityNotFoundError _) => (st1, .ok 0)
  | .error e => (st1, .error e)
  | .ok lastEnt =>
      match lastEnt.idVal with
      | .vint n => (st1, .ok (n + 1))
      | _ => (st1, .error (.autoIncrementError
          "Auto increment is not yet supported for Entities with string id_s."))

/-- Embeds `FakeRepository._add` (`data/fake.py` lines 37-55): hydrate
`new_entities` from a deep copy of the committed store when the stage is
empty, then upsert the entity under its type and id. -/
def fakeAddU (st : FakeRepo) (e : Entity) : FakeRepo :=
  let staged := if st.newEntities.isEmpty then st.entities else st.newEntities
  let table := (alistLookup staged e.model).getD []
  { st with newEntities := alistInsert staged e.model (alistInsert table e.idVal e) }

/-- The staged store after the hydration step shared by `_add` and
`delete` (`data/fake.py` lines 46-47 and 66-67): when the stage is empty
it is first re-seeded with a deep copy of the committed store. -/
def hydratedStage (st : FakeRepo) : Store :=
  if st.newEntities.isEmpty then st.entities else st.newEntities

/-- Embeds `FakeRepository.delete` (`data/fake.py` lines 57-73): hydrate the
stage like `_add`, then `self.new_entities[type(entity)].pop(entity.id_, None)`.
The `pop` has a default, so only a missing *model* key raises a `KeyError`
(re-raised as `EntityNotFoundError`); a missing id is silently ignored. -/
def fakeDelete (st : FakeRepo) (e : Entity) : FakeRepo × Except PyError Unit :=
  let staged := hydratedStage st
  match alistLookup staged e.model with
  | none =>
      ({ st with newEntities := staged },
        .error (.entityNotFoundError
          "Unable to delete entity because it's not in the repository"))
  | some table =>
      ({ st with newEntities := alistInsert staged e.model (alistRemoveKey table e.idVal) },
        .ok ())

/-- Embeds `FakeRepository.commit` (`data/fake.py` lines 120-124): copy every
staged model table over the committed one, then clear the stage. -/
def fakeCommit (st : FakeRepo) : FakeRepo :=
  { st with
    entities := st.newEntities.foldl (fun acc kv => alistInsert acc kv.1 kv.2) st.entities
    newEntities := [] }

/-- Embeds `FakeRepository._get` (`data/fake.py` lines 75-101) for the default
`attribute == "id_"`: a deep copy of the matching committed entities (one
or none) as a Python list. -/
def fakeGetU (st : FakeRepo) (value : Value) (m : Model) : List Entity :=
  match (alistLookup st.entities m).bind (fun t => alistLookup t value) with
  | some e => [e]
  | none => []

/-- A Python runtime value flowing through `Repository.get`: an entity, a
list of entities, or `None`. -/
inductive PyVal where
  | entity (e : Entity)
  | pylist (l : List Entity)
  | pynone
deriving DecidableEq, Repr

/-- Calling `.clear_defined_values()` on a runtime value: on an entity the
method runs and returns `None` (`model.py` lines 103-109); on a list or
`None` the attribute lookup raises `AttributeError`. -/
def callClearDefinedValues : PyVal → Except PyError PyVal
  | .entity _ => .ok .pynone
  | .pylist _ => .error (.attributeError "list object has no attribute clear_defined_values")
  | .pynone => .error (.attributeError "NoneType object has no attribute clear_defined_values")

/-- Embeds `Cache.add` applied to a runtime value: `None` is neither an entity
nor iterable, so `list(None)` raises `TypeError`. -/
def pyCacheAdd (c : Cache) : PyVal → Except PyError Cache
  | .entity e => .ok (cacheAddOne c e)
  | .pylist l => .ok (cacheAddList c l)
  | .pynone => .error (.typeError "NoneType object is not iterable")

/-- Embeds `Repository.get` (`data/abstract.py` lines 124-146) over the
`FakeRepository` backend: `entity = self._get(id_, models).clear_defined_values()`
chains the call on the Python *list* `_get` returns, then
`self.cache.add(entity)` runs on the result before it is returned. -/
def repoGet (st : FakeRepo) (value : Value) (m : Model) : FakeRepo × Except PyError Entity :=
  match callClearDefinedValues (.pylist (fakeGetU st value m)) with
  | .error err => (st, .error err)
  | .ok v =>
      match pyCacheAdd st.cache v with
      | .error err => (st, .error err)
      | .ok c =>
          match v with
          | .entity e => ({ st with cache := c }, .ok e)
          | _ => ({ st with cache := c },
              .error (.typeError "get did not produce an entity"))

/-- Steps 4-5 of `Repository.add` (`data/abstract.py` lines 84-91): skip
the backend `_add` when the cache snapshot equals the entity, otherwise
`_add` and refresh the cache. -/
def addCore (st : FakeRepo) (e : Entity) : FakeRepo × Except PyError Entity :=
  if entityHasNotChanged st.cache e then (st, .ok e)
  else
    let st1 := fakeAddU st e
    ({ st1 with cache := cacheAddOne st1.cache e }, .ok e)

/-- Step 3 of `Repository.add` (`data/abstract.py` lines 79-82): with
`merge=True`, load the stored entity (only `EntityNotFoundError` is
suppressed) and merge the incoming entity onto it. -/
def addMerge (st : FakeRepo) (e : Entity) (merge : Bool) : FakeRepo × Except PyError Entity :=
  if merge then
    let (st1, r) := repoGet st e.idVal e.model
    match r with
    | .ok stored =>
        match stored.merge e with
        | .ok merged => addCore st1 merged
        | .error msg => (st1, .error (.valueError msg))
    | .error (.entityNotFoundError _) => addCore st1 e
    | .error err => (st1, .error err)
  else addCore st e

/-- Embeds `Repository.add` for a single entity (`data/abstract.py` lines 73-91)
over the `FakeRepository`: assign an auto-increment id when `id_` is a
negative int, then merge (optional), then the cache-guarded `_add`. -/
def repoAdd (st : FakeRepo) (e : Entity) (merge : Bool) : FakeRepo × Except PyError Entity :=
  match e.idVal with
  | .vint n =>
      if n < 0 then
        let (st1, r) := nextIdF st e.model
        match r with
        | .ok nid => addMerge st1 (e.setattr "id_" (.vint nid)) merge
        | .error err => (st1, .error err)
      else addMerge st e merge
  | _ => addMerge st e merge

/-- All records held in a store, in table order. -/
def storeEntities (store : Store) : List Entity :=
  store.foldl (fun acc kv => acc ++ alistValues kv.2) []

/-- Number of stored records satisfying `p`. -/
def storeCount (store : Store) (p : Entity → Bool) : Nat :=
  (storeEntities store).countP p

/-- The `models` argument of the historical repository methods
(`adapters/abstract.py`): `None`, a single model, or a list. -/
inductive ModelsArg where
  | noneArg
  | one (m : Model)
  | many (ms : List Model)
deriving DecidableEq, Repr

/-- State of the historical `FakeRepository` (`adapters/fake.py`): the
models passed at construction, the committed store and the stage. -/
structure OldFakeRepo where
  models : List Model
  entities : Store
  newEntities : Store
deriving DecidableEq, Repr

/-- Embeds `Repository._build_models` (`adapters/abstract.py` lines 211-217). -/
def buildModels (repo : OldFakeRepo) : ModelsArg → List Model
  | .noneArg => repo.models
  | .one m => [m]
  | .many ms => ms

/-- Embeds `Repository._model_not_found` (`adapters/abstract.py` lines 183-209):
the error for an empty lookup.  The final branch indexes `models[0]`, so
an explicit empty model list different from the constructor's raises
`IndexError` instead. -/
def oldModelNotFound (repo : OldFakeRepo) (ms : List Model) (appendStr : String) : PyError :=
  if ms = repo.models then
    .entityNotFoundError ("There are no entities in the repository" ++ appendStr ++ ".")
  else if 0 < ms.length then
    .entityNotFoundError ("There are no entities of type " ++
      String.intercalate ", " (ms.map Model.name) ++ " in the repository" ++ appendStr ++ ".")
  else
    .indexError "list index out of range"

/-- The committed entities matching `id_` across the looked-up models
(`adapters/fake.py` lines 88-93: one per model whose table holds the id,
`KeyError` suppressed). -/
def oldMatching (repo : OldFakeRepo) (id_ : Value) (ms : List Model) : List Entity :=
  ms.foldl (fun acc m =>
    match (alistLookup repo.entities m).bind (fun t => alistLookup t id_) with
    | some e => acc ++ [e]
    | none => acc) []

/-- Embeds `FakeRepository.get` (`adapters/fake.py` lines 72-102): exactly one
match is returned; zero matches raise `EntityNotFoundError`; more than
one raises `TooManyEntitiesError`. -/
def oldGet (repo : OldFakeRepo) (id_ : Value) (arg : ModelsArg) : Except PyError Entity :=
  match oldMatching repo id_ (buildModels repo arg) with
  | [e] => .ok e
  | [] => .error (oldModelNotFound repo (buildModels repo arg) (" with id " ++ id_.pyStr))
  | _ => .error (.tooManyEntitiesError "More than one entity was found with the id")

/-- Lower-case a string (`model.__name__.lower()`). -/
def strLower (s : String) : String :=
  String.mk (s.data.map Char.toLower)

/-- A TinyDB document: the exported entity fields plus `model_type_`
(`data/tinydb.py`, `_export_entity`). -/
abbrev Record := Dict

/-- Embeds `Query().model_type_ == model.__name__.lower()` on a document. -/
def qModelType (m : Model) (r : Record) : Bool :=
  dictLookup r "model_type_" == some (.vstr (strLower m.name))

/-- Embeds `TinyDBRepository._build_entity`: `model.parse_obj(entity_data)`
builds the entity from the document fields (extra keys ignored by the
field projection, recorded in `_defined_values` like any constructor
data). -/
def buildEntity (m : Model) (r : Record) : Entity :=
  mkEntity m r

/-- The stored entities of a model as entity values (the documents of the
model, built). -/
def tinyStoredEntities (docs : List Record) (m : Model) : List Entity :=
  (docs.filter (fun r => qModelType m r)).map (buildEntity m)

/-- An entity as a Python object, for the aliasing analysis of
`Cache.add`: an immutable string field and a reference (heap address) to
a mutable list object, as in the `ListEntity` test model. -/
structure HEntity where
  name : String
  elements : Nat
deriving DecidableEq, Repr

/-- The heap of mutable list objects, addressed by index. -/
abbrev ListHeap := List (List String)

/-- The observable value of an entity object: its fields with the list
reference dereferenced. -/
def hview (h : ListHeap) (e : HEntity) : String × List String :=
  (e.name, h.getD e.elements [])

/-- The snapshot taken by `Cache.add` (`data/cache.py` line 40):
`entity.copy()` is pydantic's shallow, field-wise copy, so the snapshot
holds the same list reference as the live entity; `setdefault` keeps an
already existing snapshot. -/
def hCacheAdd (cached : Option HEntity) (live : HEntity) : Option HEntity :=
  match cached with
  | some s => some s
  | none => some { name := live.name, elements := live.elements }

/-- A mutation of the live entity: rebinding an attribute
(`entity.name = v` or `entity.elements = other_list`, which go through
`Entity.__setattr__`), or mutating the referenced list in place
(`entity.elements.append(x)`, which never touches `__setattr__`). -/
inductive HMut where
  | setName (v : String)
  | setElements (addr : Nat)
  | listAppend (x : String)
deriving DecidableEq, Repr

/-- Apply one mutation to the heap and the live entity. -/
def applyHMut (h : ListHeap) (e : HEntity) : HMut → ListHeap × HEntity
  | .setName v => (h, { e with name := v })
  | .setElements a => (h, { e with elements := a })
  | .listAppend x => (h.set e.elements ((h.getD e.elements []) ++ [x]), e)

/-- Apply a sequence of mutations. -/
def applyHMuts (h : ListHeap) (e : HEntity) (ms : List HMut) : ListHeap × HEntity :=
  ms.foldl (fun p mu => applyHMut p.1 p.2 mu) (h, e)

/-- A mutation that only rebinds attributes (no in-place list update). -/
def isRebind : HMut → Bool
  | .listAppend _ => false
  | _ => true

/-- The `Book` test model (`tests/cases/model.py`): integer id defaulting
to `-1`, with the inherited `name`/`state`/`active` fields and a rating. -/
def bookModel : Model :=
  { name := "Book"
    fields := [
      { name := "id_", kind := .int, default := .vint (-1) },
      { name := "name", kind := .str, default := .vstr "" },
      { name := "state", kind := .str, default := .vstr "open" },
      { name := "active", kind := .bool, default := .vbool true },
      { name := "rating", kind := .int, default := .vint 0 }]
    skipOnMerge := [] }

/-- The `Genre` test model: like `Book` but with
`_skip_on_merge = ["rating"]`. -/
def genreModel : Model :=
  { name := "Genre"
    fields := [
      { name := "id_", kind := .int, default := .vint (-1) },
      { name := "name", kind := .str, default := .vstr "" },
      { name := "state", kind := .str, default := .vstr "open" },
      { name := "active", kind := .bool, default := .vbool true },
      { name := "rating", kind := .int, default := .vint 0 }]
    skipOnMerge := ["rating"] }

/-- The `Author` test model: string-valued id. -/
def authorModel : Model :=
  { name := "Author"
    fields := [
      { name := "id_", kind := .str, default := .vstr "" },
      { name := "name", kind := .str, default := .vstr "" },
      { name := "state", kind := .str, default := .vstr "open" },
      { name := "active", kind := .bool, default := .vbool true }]
    skipOnMerge := [] }

/-- The fold inside `Entity.merge`, with the skip list abstracted. -/
def mergeFold (skip : List String) (kvs : Dict) (e : Entity) : Entity :=
  kvs.foldl (fun acc kv => if kv.1 ∈ skip then acc else acc.setattr kv.1 kv.2) e

theorem dictLookup_nil (k : String) : dictLookup [] k = none := rfl

theorem dictLookup_cons (kv : String × Value) (d : Dict) (k : String) :
    dictLookup (kv :: d) k = if kv.1 = k then some kv.2 else dictLookup d k := by
  by_cases h : kv.1 = k
  · simp [dictLookup, List.find?, h]
  · have hb : (kv.1 == k) = false := beq_eq_false_iff_ne.mpr h
    simp [dictLookup, List.find?, hb, h]

theorem dictUpdate_keys (d : Dict) (k : String) (v : Value) :
    (dictUpdate d k v).map Prod.fst = d.map Prod.fst := by
  induction d with
  | nil => rfl
  | cons kv rest ih =>
      by_cases h : kv.1 = k <;> simp [dictUpdate, h, ih]

theorem dictHasKey_iff_mem (d : Dict) (k : String) :
    dictHasKey d k = true ↔ k ∈ d.map Prod.fst := by
  induction d with
  | nil => simp [dictHasKey, dictLookup]
  | cons kv rest ih =>
      by_cases h : kv.1 = k
      · simp [dictHasKey, dictLookup_cons, h]
      · simp only [dictHasKey] at ih
        simp [dictHasKey, dictLookup_cons, h, ih, Ne.symm h]

theorem dictLookup_dictUpdate_self (d : Dict) (k : String) (v : Value)
    (h : dictHasKey d k = true) :
    dictLookup (dictUpdate d k v) k = some v := by
  induction d with
  | nil => simp [dictHasKey, dictLookup] at h
  | cons kv rest ih =>
      by_cases hk : kv.1 = k
      · simp [dictUpdate, hk, dictLookup_cons]
      · have h' : dictHasKey rest k = true := by
          simp only [dictHasKey, dictLookup_cons, hk, if_false] at h
          exact h
        simp [dictUpdate, hk, dictLookup_cons, ih h']

theorem dictLookup_dictUpdate_ne (d : Dict) (k : String) (v : Value) (f : String)
    (h : f ≠ k) :
    dictLookup (dictUpdate d k v) f = dictLookup d f := by
  induction d with
  | nil => rfl
  | cons kv rest ih =>
      by_cases hk : kv.1 = k
      · subst hk
        simp [dictUpdate, dictLookup_cons, Ne.symm h]
      · simp [dictUpdate, hk, dictLookup_cons, ih]

theorem setattr_model (e : Entity) (k : String) (v : Value) :
    (e.setattr k v).model = e.model := rfl

theorem setattr_attrs_keys (e : Entity) (k : String) (v : Value) :
    (e.setattr k v).attrs.map Prod.fst = e.attrs.map Prod.fst := by
  simp [Entity.setattr, dictUpdate_keys]

theorem setattr_lookup_self (e : Entity) (k : String) (v : Value)
    (h : dictHasKey e.attrs k = true) :
    dictLookup (e.setattr k v).attrs k = some v := by
  simp [Entity.setattr, dictLookup_dictUpdate_self e.attrs k v h]

theorem setattr_lookup_ne (e : Entity) (k : String) (v : Value) (f : String)
    (h : f ≠ k) :
    dictLookup (e.setattr k v).attrs f = dictLookup e.attrs f := by
  simp [Entity.setattr, dictLookup_dictUpdate_ne e.attrs k v f h]

theorem mergeFold_model (skip : List String) (kvs : Dict) (e : Entity) :
    (mergeFold skip kvs e).model = e.model := by
  induction kvs generalizing e with
  | nil => rfl
  | cons kv rest ih =>
      by_cases h : kv.1 ∈ skip <;> simp [mergeFold, List.foldl, h] at ih ⊢ <;>
        exact ih _

theorem mergeFold_attrs_keys (skip : List String) (kvs : Dict) (e : Entity) :
    (mergeFold skip kvs e).attrs.map Prod.fst = e.attrs.map Prod.fst := by
  induction kvs generalizing e with
  | nil => rfl
  | cons kv rest ih =>
      by_cases h : kv.1 ∈ skip
      · simp only [mergeFold, List.foldl, h, if_true] at ih ⊢
        exact ih e
      · simp only [mergeFold, List.foldl, h, if_false] at ih ⊢
        rw [ih (e.setattr kv.1 kv.2), setattr_attrs_keys]

theorem mergeFold_lookup_skip (skip : List String) (kvs : Dict) (e : Entity)
    (f : String) (h : dictLookup kvs f = none ∨ f ∈ skip) :
    dictLookup (mergeFold skip kvs e).attrs f = dictLookup e.attrs f := by
  induction kvs generalizing e with
  | nil => rfl
  | cons kv rest ih =>
      by_cases hsk : kv.1 ∈ skip
      · simp only [mergeFold, List.foldl, hsk, if_true] at ih ⊢
        refine ih e ?_
        rcases h with h | h
        · rw [dictLookup_cons] at h
          by_cases hf : kv.1 = f
          · simp [hf] at h
          · left
            simpa [hf] using h
        · right; exact h
      · simp only [mergeFold, List.foldl, hsk, if_false] at ih ⊢
        have hf : kv.1 ≠ f := by
          intro heq
          rcases h with h | h
          · rw [dictLookup_cons, if_pos heq] at h; exact Option.noConfusion h
          · exact hsk (heq ▸ h)
        have h' : dictLookup rest f = none ∨ f ∈ skip := by
          rcases h with h | h
          · left; rwa [dictLookup_cons, if_neg hf] at h
          · right; exact h
        rw [ih (e.setattr kv.1 kv.2) h', setattr_lookup_ne _ _ _ _ (Ne.symm hf)]

theorem mergeFold_lookup_defined (skip : List String) (kvs : Dict) (e : Entity)
    (f : String) (v : Value)
    (hnodup : (kvs.map Prod.fst).Nodup)
    (hf : dictLookup kvs f = some v) (hsk : f ∉ skip)
    (hkey : dictHasKey e.attrs f = true) :
    dictLookup (mergeFold skip kvs e).attrs f = some v := by
  induction kvs generalizing e with
  | nil => simp [dictLookup] at hf
  | cons kv rest ih =>
      rw [dictLookup_cons] at hf
      by_cases hk : kv.1 = f
      · rw [if_pos hk] at hf
        injection hf with hv
        subst hk
        have hnot : dictLookup rest kv.1 = none := by
          simp only [List.map_cons, List.nodup_cons] at hnodup
          rcases h : dictLookup rest kv.1 with _ | w
          · rfl
          · exfalso
            apply hnodup.1
            have hh : dictHasKey rest kv.1 = true := by simp [dictHasKey, h]
            exact (dictHasKey_iff_mem rest kv.1).mp hh
        simp only [mergeFold, List.foldl, hsk, if_false]
        have hrest := mergeFold_lookup_skip skip rest (e.setattr kv.1 kv.2) kv.1 (Or.inl hnot)
        simp only [mergeFold] at hrest
        rw [hrest, setattr_lookup_self e kv.1 kv.2 hkey, hv]
      · rw [if_neg hk] at hf
        simp only [List.map_cons, List.nodup_cons] at hnodup
        by_cases hsk2 : kv.1 ∈ skip
        · simp only [mergeFold, List.foldl, hsk2, if_true] at ih ⊢
          exact ih e hnodup.2 hf hkey
        · simp only [mergeFold, List.foldl, hsk2, if_false] at ih ⊢
          refine ih (e.setattr kv.1 kv.2) hnodup.2 hf ?_
          have : (Entity.setattr e kv.1 kv.2).attrs.map Prod.fst = e.attrs.map Prod.fst :=
            setattr_attrs_keys e kv.1 kv.2
          rw [dictHasKey_iff_mem, this, ← dictHasKey_iff_mem]
          exact hkey

theorem dictLookup_eq_some_mem (d : Dict) (f : String) (v : Value)
    (h : dictLookup d f = some v) : (f, v) ∈ d := by
  induction d with
  | nil => simp [dictLookup] at h
  | cons kv rest ih =>
      rw [dictLookup_cons] at h
      by_cases hk : kv.1 = f
      · rw [if_pos hk] at h
        injection h with hv
        have hkv : (f, v) = kv := by
          cases kv
          simp only at hk hv
          simp [hk, hv]
        rw [hkv]
        exact List.mem_cons_self kv rest
      · rw [if_neg hk] at h
        exact List.mem_cons_of_mem kv (ih h)

/-- C1: for two entities of the same concrete type with equal `id_`,
`a.merge(b)` succeeds and returns `a` updated as follows: every attribute
in `b`'s `defined_values` that is not in the type's `skip_on_merge` is
overwritten with `b`'s value, and every other attribute — in particular
every attribute of `b` only holding a class default, which never enters
`defined_values` — keeps `a`'s prior value.  The result is `a` itself
with those fields assigned (same class, same field set). -/
theorem merge_overwrites_exactly_defined_values
    (a b : Entity)
    (hm : b.model = a.model)
    (ha : wfEntity a = true) (hb : wfEntity b = true)
    (hid : a.idVal = b.idVal) :
    a.merge b = Except.ok (mergeFold a.model.skipOnMerge b.definedValues a) ∧
    (mergeFold a.model.skipOnMerge b.definedValues a).model = a.model ∧
    (mergeFold a.model.skipOnMerge b.definedValues a).attrs.map Prod.fst =
      a.attrs.map Prod.fst ∧
    (∀ f v, dictLookup b.definedValues f = some v → f ∉ a.model.skipOnMerge →
      dictLookup (mergeFold a.model.skipOnMerge b.definedValues a).attrs f = some v) ∧
    (∀ f, dictLookup b.definedValues f = none ∨ f ∈ a.model.skipOnMerge →
      dictLookup (mergeFold a.model.skipOnMerge b.definedValues a).attrs f =
        dictLookup a.attrs f) := by
  simp only [wfEntity, Bool.and_eq_true, decide_eq_true_eq] at ha hb
  refine ⟨?_, mergeFold_model _ _ _, mergeFold_attrs_keys _ _ _, ?_, ?_⟩
  · simp [Entity.merge, hm, hid, mergeFold]
  · intro f v hf hsk
    have hmem : (f, v) ∈ b.definedValues := dictLookup_eq_some_mem _ _ _ hf
    have hagree := List.all_eq_true.mp hb.2 (f, v) hmem
    have hbattr : dictLookup b.attrs f = some v := by
      simpa using hagree
    have hkeyb : f ∈ b.attrs.map Prod.fst := by
      have hh : dictHasKey b.attrs f = true := by simp [dictHasKey, hbattr]
      exact (dictHasKey_iff_mem _ _).mp hh
    have hkeya : dictHasKey a.attrs f = true := by
      rw [dictHasKey_iff_mem]
      rw [hb.1.1, hm] at hkeyb
      rw [ha.1.1]
      exact hkeyb
    exact mergeFold_lookup_defined _ _ _ _ _ hb.1.2 hf hsk hkeya
  · intro f hf
    exact mergeFold_lookup_skip _ _ _ _ hf

/-- Concrete instance of C1, mirroring the specification's own examples:
`a = Genre(id_=1, name="a")`, `b = Genre(id_=1, state="closed", rating=9)`
with `rating` in `skip_on_merge`.  The merge overwrites `state` (defined
on `b`), keeps `name` (only defaulted on `b`) and keeps `rating`
(skip-on-merge), and `merge` returns exactly that update of `a`. -/
theorem merge_overwrites_exactly_defined_values_witness :
    (mkEntity genreModel [("id_", .vint 1), ("name", .vstr "a")]).merge
      (mkEntity genreModel [("id_", .vint 1), ("state", .vstr "closed"), ("rating", .vint 9)]) =
      Except.ok (mergeFold genreModel.skipOnMerge
        [("id_", .vint 1), ("state", .vstr "closed"), ("rating", .vint 9)]
        (mkEntity genreModel [("id_", .vint 1), ("name", .vstr "a")])) ∧
    dictLookup (mergeFold genreModel.skipOnMerge
      [("id_", .vint 1), ("state", .vstr "closed"), ("rating", .vint 9)]
      (mkEntity genreModel [("id_", .vint 1), ("name", .vstr "a")])).attrs "state" =
      some (.vstr "closed") ∧
    dictLookup (mergeFold genreModel.skipOnMerge
      [("id_", .vint 1), ("state", .vstr "closed"), ("rating", .vint 9)]
      (mkEntity genreModel [("id_", .vint 1), ("name", .vstr "a")])).attrs "name" =
      some (.vstr "a") ∧
    dictLookup (mergeFold genreModel.skipOnMerge
      [("id_", .vint 1), ("state", .vstr "closed"), ("rating", .vint 9)]
      (mkEntity genreModel [("id_", .vint 1), ("name", .vstr "a")])).attrs "rating" =
      some (.vint 0) := by
  have h := merge_overwrites_exactly_defined_values
    (mkEntity genreModel [("id_", .vint 1), ("name", .vstr "a")])
    (mkEntity genreModel [("id_", .vint 1), ("state", .vstr "closed"), ("rating", .vint 9)])
    (by decide) (by decide) (by decide) (by decide)
  refine ⟨h.1, ?_, ?_, ?_⟩
  · exact h.2.2.2.1 "state" (.vstr "closed") (by decide) (by decide)
  · have hn := h.2.2.2.2 "name" (by decide)
    exact hn.trans (by decide)
  · have hr := h.2.2.2.2 "rating" (by decide)
    exact hr.trans (by decide)

theorem pyEq_refl (e : Entity) : pyEq e e = true := by
  simp [pyEq]

theorem alistLookup_singleton_self {α β : Type} [DecidableEq α] (k : α) (v : β) :
    alistLookup [(k, v)] k = some v := by
  simp [alistLookup, List.find?]

/-- Embeds `FakeRepository.last` always raises the `warn_on_models` arity
`TypeError`, whatever the repository state: both the empty-repository and
the non-empty branch run the three-argument call before anything is
returned. -/
theorem fakeLast_raises_type_error (st : FakeRepo) (m : Model) :
    (fakeLast st m).2 = Except.error (.typeError warnArityMsg) := by
  unfold fakeLast absLast
  cases hr : repoAll st m with
  | mk st1 es =>
      cases es <;> simp [warnOnModelsCall3, Except.bind]

/-- C4 (code bug): `next_id` never returns on the `FakeRepository` — its
`self.last(...)` call dispatches to `FakeRepository.last`, which raises
`TypeError` from the three-argument `warn_on_models` call (never the
`EntityNotFoundError` that would produce `0`) — and consequently adding
an entity with an unset (negative) id to an empty repository raises
instead of assigning id 0. -/
theorem next_id_always_raises_type_error :
    (∀ (st : FakeRepo) (m : Model),
        (nextIdF st m).2 = Except.error (.typeError warnArityMsg)) ∧
    (repoAdd emptyFakeRepo (mkEntity bookModel [("name", .vstr "NoIdFour")]) false).2 =
      Except.error (.typeError warnArityMsg) := by
  constructor
  · intro st m
    unfold nextIdF
    cases hr : fakeLast st m with
    | mk st1 r =>
        have h2 : r = Except.error (.typeError warnArityMsg) := by
          have := fakeLast_raises_type_error st m
          rw [hr] at this
          exact this
        rw [h2]
  · rfl

/-- C2 (code bug): after `add` and `commit` of `Book(id_=1, name="Brandon")`
on a fresh `FakeRepository`, `repo.get(1, Book)` does not return the
stored entity: `Repository.get` calls `.clear_defined_values()` on the
Python list returned by `_get`, raising `AttributeError` (and
`clear_defined_values` returns `None` in any case), so the round-trip
never produces a value. -/
theorem roundtrip_get_raises_attribute_error :
    (repoGet
        (fakeCommit (repoAdd emptyFakeRepo
          (mkEntity bookModel [("id_", .vint 1), ("name", .vstr "Brandon")]) false).1)
        (.vint 1) bookModel).2 =
      Except.error (.attributeError "list object has no attribute clear_defined_values") ∧
    storeCount
        (fakeCommit (repoAdd emptyFakeRepo
          (mkEntity bookModel [("id_", .vint 1), ("name", .vstr "Brandon")]) false).1).entities
        (fun x => pyEq x (mkEntity bookModel [("id_", .vint 1), ("name", .vstr "Brandon")])) = 1 :=
  ⟨rfl, rfl⟩

/-- C10 (code bug): `add` on a single entity whose `id_` is a negative
integer raises `TypeError` before the assignment `entity.id_ = self.next_id(entity)`
can run, so the caller's entity never receives a non-negative id. -/
theorem add_unset_id_never_assigns :
    (mkEntity bookModel [("name", .vstr "NoIdTen")]).idVal = .vint (-1) ∧
    (repoAdd emptyFakeRepo (mkEntity bookModel [("name", .vstr "NoIdTen")]) false).2 =
      Except.error (.typeError warnArityMsg) :=
  ⟨rfl, rfl⟩

/-- The entity's id is already set: not a negative integer (the negation
of the auto-increment guard in `Repository.add`). -/
def idIsSet (e : Entity) : Bool :=
  match e.idVal with
  | .vint n => decide (0 ≤ n)
  | _ => true

/-- The repository state after one `add` of `e` on a fresh repository. -/
def addOnce (e : Entity) : FakeRepo :=
  (repoAdd emptyFakeRepo e false).1

/-- C3 counterexample: the claim quantifies over every entity, but for an
entity with an unset (negative) id — `Book(name="First")` — the first
`add` raises `TypeError` (broken auto-increment, see C4), so
`add(e); add(e); commit()` leaves zero stored records equal to `e`, not
one. -/
theorem add_add_commit_fails_for_unset_id :
    (repoAdd emptyFakeRepo (mkEntity bookModel [("name", .vstr "First")]) false).2 =
      Except.error (.typeError warnArityMsg) ∧
    storeCount
        (fakeCommit (repoAdd emptyFakeRepo (mkEntity bookModel [("name", .vstr "First")]) false).1).entities
        (fun x => pyEq x (mkEntity bookModel [("name", .vstr "First")])) = 0 :=
  ⟨rfl, rfl⟩

/-- C3 (amended): for entities whose id is already set, `add` is
idempotent: when the entity equals its cache snapshot, `add` performs no
backend `_add` (the state is returned untouched) and returns the entity
unchanged; and `add(e); add(e); commit()` from an empty repository leaves
exactly one stored record equal to `e`, with the second `add` a no-op. -/
theorem add_is_idempotent_when_id_set :
    (∀ (st : FakeRepo) (e : Entity), idIsSet e = true →
        entityHasNotChanged st.cache e = true →
        repoAdd st e false = (st, Except.ok e)) ∧
    (∀ e : Entity, idIsSet e = true →
        repoAdd emptyFakeRepo e false = (addOnce e, Except.ok e) ∧
        repoAdd (addOnce e) e false = (addOnce e, Except.ok e) ∧
        storeCount (fakeCommit (addOnce e)).entities (fun x => pyEq x e) = 1 ∧
        (fakeCommit (addOnce e)).newEntities = []) := by
  have hskip : ∀ (st : FakeRepo) (e : Entity), idIsSet e = true →
      entityHasNotChanged st.cache e = true →
      repoAdd st e false = (st, Except.ok e) := by
    intro st e h1 h2
    cases hv : e.idVal with
    | vint n =>
        have hn : ¬ n < 0 := by
          simp only [idIsSet, hv, decide_eq_true_eq] at h1
          exact not_lt.mpr h1
        simp [repoAdd, hv, hn, addMerge, addCore, h2]
    | vstr s => simp [repoAdd, hv, addMerge, addCore, h2]
    | vbool b => simp [repoAdd, hv, addMerge, addCore, h2]
    | vlist xs => simp [repoAdd, hv, addMerge, addCore, h2]
    | vnone => simp [repoAdd, hv, addMerge, addCore, h2]
  refine ⟨hskip, ?_⟩
  intro e h1
  have hch : entityHasNotChanged [] e = false := rfl
  have hadd1 : repoAdd emptyFakeRepo e false =
      (⟨[], [(e.model, [(e.idVal, e)])], [(e.model, [(e.idVal, e)])]⟩, Except.ok e) := by
    cases hv : e.idVal with
    | vint n =>
        have hn : ¬ n < 0 := by
          simp only [idIsSet, hv, decide_eq_true_eq] at h1
          exact not_lt.mpr h1
        simp [repoAdd, hv, hn, addMerge, addCore, hch, fakeAddU, cacheAddOne,
          alistLookup, alistInsert, alistSetdefault, emptyFakeRepo]
    | vstr s =>
        simp [repoAdd, hv, addMerge, addCore, hch, fakeAddU, cacheAddOne,
          alistLookup, alistInsert, alistSetdefault, emptyFakeRepo]
    | vbool b =>
        simp [repoAdd, hv, addMerge, addCore, hch, fakeAddU, cacheAddOne,
          alistLookup, alistInsert, alistSetdefault, emptyFakeRepo]
    | vlist xs =>
        simp [repoAdd, hv, addMerge, addCore, hch, fakeAddU, cacheAddOne,
          alistLookup, alistInsert, alistSetdefault, emptyFakeRepo]
    | vnone =>
        simp [repoAdd, hv, addMerge, addCore, hch, fakeAddU, cacheAddOne,
          alistLookup, alistInsert, alistSetdefault, emptyFakeRepo]
  have haddOnce : addOnce e = ⟨[], [(e.model, [(e.idVal, e)])], [(e.model, [(e.idVal, e)])]⟩ := by
    unfold addOnce
    rw [hadd1]
  have hch2 : entityHasNotChanged (addOnce e).cache e = true := by
    rw [haddOnce]
    simp [entityHasNotChanged, cacheGet, alistLookup_singleton_self, pyEq_refl]
  constructor
  · rw [haddOnce]
    exact hadd1
  constructor
  · exact hskip (addOnce e) e h1 hch2
  constructor
  · rw [haddOnce]
    simp [fakeCommit, storeCount, storeEntities, alistValues, alistInsert,
      List.countP_cons, pyEq_refl]
  · rw [haddOnce]
    simp [fakeCommit]

/-- Witness for the amended C3 at `Book(id_=0, name="Brandon")`: the
second `add` is a no-op returning the entity, and the committed store
holds exactly one record equal to it. -/
theorem add_is_idempotent_when_id_set_witness :
    repoAdd (addOnce (mkEntity bookModel [("id_", .vint 0), ("name", .vstr "Brandon")]))
        (mkEntity bookModel [("id_", .vint 0), ("name", .vstr "Brandon")]) false =
      (addOnce (mkEntity bookModel [("id_", .vint 0), ("name", .vstr "Brandon")]),
        Except.ok (mkEntity bookModel [("id_", .vint 0), ("name", .vstr "Brandon")])) ∧
    storeCount
        (fakeCommit (addOnce (mkEntity bookModel [("id_", .vint 0), ("name", .vstr "Brandon")]))).entities
        (fun x => pyEq x (mkEntity bookModel [("id_", .vint 0), ("name", .vstr "Brandon")])) = 1 := by
  have h := add_is_idempotent_when_id_set.2
    (mkEntity bookModel [("id_", .vint 0), ("name", .vstr "Brandon")]) (by decide)
  exact ⟨h.2.1, h.2.2.1⟩

/-- The committed entities of a model, in table order
(`self.entities[model].items()`, `KeyError` suppressed). -/
def committedOf (st : FakeRepo) (m : Model) : List Entity :=
  alistValues ((alistLookup st.entities m).getD [])

/-- The entity id is an integer. -/
def hasIntId (e : Entity) : Bool :=
  match e.idVal with
  | .vint _ => true
  | _ => false

/-- The integer id of an entity (0 for non-integer ids). -/
def idInt (e : Entity) : Int :=
  match e.idVal with
  | .vint n => n
  | _ => 0

theorem sortEnt_perm (l : List Entity) : (sortEnt l).Perm l :=
  List.perm_insertionSort _ l

theorem sortEnt_eq_nil_iff (l : List Entity) : sortEnt l = [] ↔ l = [] := by
  constructor
  · intro h
    have hp := (sortEnt_perm l).symm
    rw [h] at hp
    exact hp.eq_nil
  · intro h
    rw [h]
    rfl

theorem entLt_int (a b : Entity) (ha : hasIntId a = true) (hb : hasIntId b = true) :
    entLt a b = decide (idInt a < idInt b) := by
  cases h1 : a.idVal with
  | vint m =>
      cases h2 : b.idVal with
      | vint n => simp [entLt, idInt, h1, h2]
      | vstr s => simp [hasIntId, h2] at hb
      | vbool x => simp [hasIntId, h2] at hb
      | vlist x => simp [hasIntId, h2] at hb
      | vnone => simp [hasIntId, h2] at hb
  | vstr s => simp [hasIntId, h1] at ha
  | vbool x => simp [hasIntId, h1] at ha
  | vlist x => simp [hasIntId, h1] at ha
  | vnone => simp [hasIntId, h1] at ha

theorem pyMinFold_mem (xs : List Entity) (acc : Entity) :
    xs.foldl (fun a y => if entLt y a then y else a) acc ∈ acc :: xs := by
  induction xs generalizing acc with
  | nil => simp [List.foldl]
  | cons z zs ih =>
      simp only [List.foldl]
      by_cases hz : entLt z acc
      · rw [if_pos hz]
        have h := ih z
        rcases List.mem_cons.mp h with h1 | h1
        · rw [h1]; simp
        · simp [List.mem_cons, h1]
      · rw [if_neg hz]
        have h := ih acc
        rcases List.mem_cons.mp h with h1 | h1
        · rw [h1]; simp
        · simp [List.mem_cons, h1]

theorem pyMinFold_le (xs : List Entity) (acc : Entity)
    (hall : ∀ y ∈ acc :: xs, hasIntId y = true) :
    ∀ y ∈ acc :: xs,
      idInt (xs.foldl (fun a y => if entLt y a then y else a) acc) ≤ idInt y := by
  induction xs generalizing acc with
  | nil =>
      intro y hy
      simp only [List.mem_cons, List.not_mem_nil, or_false] at hy
      simp [List.foldl, hy]
  | cons z zs ih =>
      intro y hy
      simp only [List.foldl]
      have hacc_i := hall acc (by simp)
      have hz_i := hall z (by simp)
      have hallz : ∀ w ∈ (if entLt z acc then z else acc) :: zs, hasIntId w = true := by
        intro w hw
        rcases List.mem_cons.mp hw with h | h
        · by_cases hz : entLt z acc
          · rw [if_pos hz] at h; rw [h]; exact hz_i
          · rw [if_neg hz] at h; rw [h]; exact hacc_i
        · exact hall w (by simp [h])
      have hle1 : idInt (if entLt z acc then z else acc) ≤ idInt acc := by
        by_cases hz : entLt z acc
        · rw [entLt_int z acc hz_i hacc_i, decide_eq_true_eq] at hz
          rw [if_pos]
          · exact le_of_lt hz
          · rw [entLt_int z acc hz_i hacc_i, decide_eq_true_eq]
            exact hz
        · rw [if_neg hz]
      have hle2 : idInt (if entLt z acc then z else acc) ≤ idInt z := by
        by_cases hz : entLt z acc
        · rw [if_pos hz]
        · rw [entLt_int z acc hz_i hacc_i, decide_eq_true_eq, not_lt] at hz
          rw [if_neg]
          · exact hz
          · rw [entLt_int z acc hz_i hacc_i, decide_eq_true_eq, not_lt]
            exact hz
      have hhead := ih (if entLt z acc then z else acc) hallz
        (if entLt z acc then z else acc) (by simp)
      rcases List.mem_cons.mp hy with h | h
      · rw [h]
        exact le_trans hhead hle1
      · rcases List.mem_cons.mp h with h2 | h2
        · rw [h2]
          exact le_trans hhead hle2
        · exact ih (if entLt z acc then z else acc) hallz y (by simp [h2])

/-- C5 counterexample: a repository whose stage holds `Book(id_=5)` and
whose durable store is empty.  The claim says `first` must consider the
staged entity and `last` must return it; instead `first` raises
`EntityNotFoundError` (it reads only committed entities) and
`FakeRepository.last` raises the `warn_on_models` arity `TypeError`. -/
theorem first_and_last_on_staged_only_counterexample :
    stagedEntitiesU (fakeAddU emptyFakeRepo (mkEntity bookModel [("id_", .vint 5), ("name", .vstr "Staged")])) bookModel =
      some [mkEntity bookModel [("id_", .vint 5), ("name", .vstr "Staged")]] ∧
    isNotFound (repoFirst (fakeAddU emptyFakeRepo (mkEntity bookModel [("id_", .vint 5), ("name", .vstr "Staged")])) bookModel).2 = true ∧
    isTypeErr (fakeLast (fakeAddU emptyFakeRepo (mkEntity bookModel [("id_", .vint 5), ("name", .vstr "Staged")])) bookModel).2 = true :=
  ⟨rfl, rfl, rfl⟩

/-- C5 (amended): `first(model)` reads committed entities only — its
result is independent of the stage, it raises `EntityNotFoundError`
exactly when no committed entity of the model exists (staged ones do not
count), and otherwise returns a committed entity of minimal id (for
integer-identified types); `FakeRepository.last` never returns at all in
this snapshot — every call raises the `warn_on_models` arity
`TypeError`. -/
theorem first_reads_committed_only_and_last_crashes :
    (∀ (st : FakeRepo) (m : Model),
        (repoFirst st m).2 = (repoFirst ⟨st.entities, [], st.cache⟩ m).2) ∧
    (∀ (st : FakeRepo) (m : Model),
        isNotFound (repoFirst st m).2 = true ↔ committedOf st m = []) ∧
    (∀ (st : FakeRepo) (m : Model) (eRes : Entity),
        (committedOf st m).all hasIntId = true →
        (repoFirst st m).2 = Except.ok eRes →
        eRes ∈ committedOf st m ∧ ∀ y ∈ committedOf st m, idInt eRes ≤ idInt y) ∧
    (∀ (st : FakeRepo) (m : Model),
        (fakeLast st m).2 = Except.error (.typeError warnArityMsg)) := by
  have hsnd : ∀ (st : FakeRepo) (m : Model), (repoFirst st m).2 =
      match sortEnt (sortEnt (committedOf st m)) with
      | [] => Except.error (.entityNotFoundError (modelNotFoundMsg m ""))
      | x :: xs => Except.ok (pyMin x xs) := fun st m => rfl
  refine ⟨fun st m => rfl, ?_, ?_, fun st m => fakeLast_raises_type_error st m⟩
  · intro st m
    rw [hsnd]
    cases hes : sortEnt (sortEnt (committedOf st m)) with
    | nil =>
        have h1 := (sortEnt_eq_nil_iff _).mp hes
        have h2 := (sortEnt_eq_nil_iff _).mp h1
        simp [isNotFound, h2]
    | cons x xs =>
        have hne : committedOf st m ≠ [] := by
          intro h
          rw [h] at hes
          exact List.noConfusion hes
        simp [isNotFound, hne]
  · intro st m eRes hall hok
    rw [hsnd] at hok
    cases hes : sortEnt (sortEnt (committedOf st m)) with
    | nil => rw [hes] at hok; exact Except.noConfusion hok
    | cons x xs =>
        rw [hes] at hok
        injection hok with hres
        have hperm : (x :: xs).Perm (committedOf st m) :=
          hes ▸ ((sortEnt_perm _).trans (sortEnt_perm _))
        have hmem : eRes ∈ x :: xs := by
          rw [← hres]
          exact pyMinFold_mem xs x
        have hall2 : ∀ y ∈ x :: xs, hasIntId y = true := by
          intro y hy
          exact List.all_eq_true.mp hall y (hperm.mem_iff.mp hy)
        constructor
        · exact hperm.mem_iff.mp hmem
        · intro y hy
          rw [← hres]
          exact pyMinFold_le xs x hall2 y (hperm.mem_iff.mpr hy)

/-- Witness for the amended C5: with `Book(id_=3)` and `Book(id_=1)`
committed and `Book(id_=9)` staged, `first(Book)` returns a committed
book of minimal id, and it is not-found exactly on an empty committed
store. -/
theorem first_reads_committed_only_witness :
    (mkEntity bookModel [("id_", .vint 1), ("name", .vstr "B")]) ∈
      committedOf
        ⟨[(bookModel, [(.vint 3, mkEntity bookModel [("id_", .vint 3), ("name", .vstr "A")]),
                       (.vint 1, mkEntity bookModel [("id_", .vint 1), ("name", .vstr "B")])])],
         [(bookModel, [(.vint 9, mkEntity bookModel [("id_", .vint 9), ("name", .vstr "C")])])], []⟩
        bookModel ∧
    ((repoFirst
        ⟨[(bookModel, [(.vint 3, mkEntity bookModel [("id_", .vint 3), ("name", .vstr "A")]),
                       (.vint 1, mkEntity bookModel [("id_", .vint 1), ("name", .vstr "B")])])],
         [(bookModel, [(.vint 9, mkEntity bookModel [("id_", .vint 9), ("name", .vstr "C")])])], []⟩
        bookModel).2 = Except.ok (mkEntity bookModel [("id_", .vint 1), ("name", .vstr "B")])) ∧
    (mkEntity bookModel [("id_", .vint 1), ("name", .vstr "B")]) ∈
      committedOf
        ⟨[(bookModel, [(.vint 3, mkEntity bookModel [("id_", .vint 3), ("name", .vstr "A")]),
                       (.vint 1, mkEntity bookModel [("id_", .vint 1), ("name", .vstr "B")])])],
         [(bookModel, [(.vint 9, mkEntity bookModel [("id_", .vint 9), ("name", .vstr "C")])])], []⟩
        bookModel ∧
    (∀ y ∈ committedOf
        ⟨[(bookModel, [(.vint 3, mkEntity bookModel [("id_", .vint 3), ("name", .vstr "A")]),
                       (.vint 1, mkEntity bookModel [("id_", .vint 1), ("name", .vstr "B")])])],
         [(bookModel, [(.vint 9, mkEntity bookModel [("id_", .vint 9), ("name", .vstr "C")])])], []⟩
        bookModel,
      idInt (mkEntity bookModel [("id_", .vint 1), ("name", .vstr "B")]) ≤ idInt y) := by
  have h := first_reads_committed_only_and_last_crashes.2.2.1
    ⟨[(bookModel, [(.vint 3, mkEntity bookModel [("id_", .vint 3), ("name", .vstr "A")]),
                   (.vint 1, mkEntity bookModel [("id_", .vint 1), ("name", .vstr "B")])])],
     [(bookModel, [(.vint 9, mkEntity bookModel [("id_", .vint 9), ("name", .vstr "C")])])], []⟩
    bookModel
    (mkEntity bookModel [("id_", .vint 1), ("name", .vstr "B")])
    (by decide) rfl
  exact ⟨h.1, rfl, h.1, h.2⟩

theorem alistLookup_cons {α β : Type} [DecidableEq α] (kv : α × β) (l : List (α × β)) (k : α) :
    alistLookup (kv :: l) k = if kv.1 = k then some kv.2 else alistLookup l k := by
  by_cases h : kv.1 = k
  · simp [alistLookup, List.find?, h]
  · simp [alistLookup, List.find?, h]

theorem alistLookup_eq_none_of_not_mem {α β : Type} [DecidableEq α]
    (l : List (α × β)) (k : α) (h : k ∉ l.map Prod.fst) :
    alistLookup l k = none := by
  induction l with
  | nil => rfl
  | cons kv rest ih =>
      simp only [List.map_cons, List.mem_cons] at h
      push_neg at h
      rw [alistLookup_cons, if_neg (fun he => h.1 he.symm)]
      exact ih h.2

theorem alistLookup_alistInsert_self {α β : Type} [DecidableEq α]
    (l : List (α × β)) (k : α) (v : β) :
    alistLookup (alistInsert l k v) k = some v := by
  induction l with
  | nil => simp [alistInsert, alistLookup, List.find?]
  | cons kv rest ih =>
      by_cases h : kv.1 = k
      · simp [alistInsert, h, alistLookup_cons]
      · simp [alistInsert, h, alistLookup_cons, ih]

theorem alistLookup_alistRemoveKey_self {α β : Type} [DecidableEq α]
    (l : List (α × β)) (k : α) (h : (l.map Prod.fst).Nodup) :
    alistLookup (alistRemoveKey l k) k = none := by
  induction l with
  | nil => rfl
  | cons kv rest ih =>
      simp only [List.map_cons, List.nodup_cons] at h
      by_cases hk : kv.1 = k
      · rw [alistRemoveKey, if_pos hk]
        apply alistLookup_eq_none_of_not_mem
        rw [← hk]
        exact h.1
      · rw [alistRemoveKey, if_neg hk, alistLookup_cons, if_neg hk]
        exact ih h.2

theorem alistLookup_alistRemoveKey_ne {α β : Type} [DecidableEq α]
    (l : List (α × β)) (k k' : α) (h : k' ≠ k) :
    alistLookup (alistRemoveKey l k) k' = alistLookup l k' := by
  induction l with
  | nil => rfl
  | cons kv rest ih =>
      by_cases hk : kv.1 = k
      · rw [alistRemoveKey, if_pos hk, alistLookup_cons,
          if_neg (fun he => h (he.symm.trans hk))]
      · rw [alistRemoveKey, if_neg hk, alistLookup_cons, alistLookup_cons, ih]

/-- C7 counterexample: the repository holds only `Book(id_=0, name="A")`
(committed, empty stage), so no entity with id 1 exists — yet
`delete(Book(id_=1, name="Ghost"))` raises nothing: the `pop(id_, None)`
default swallows the missing id, and only the model key is checked. -/
theorem delete_missing_id_raises_nothing :
    ((alistLookup
        (FakeRepo.mk [(bookModel, [(.vint 0, mkEntity bookModel [("id_", .vint 0), ("name", .vstr "A")])])] [] []).entities
        bookModel).getD []).map Prod.fst = [.vint 0] ∧
    (FakeRepo.mk [(bookModel, [(.vint 0, mkEntity bookModel [("id_", .vint 0), ("name", .vstr "A")])])] [] []).newEntities = [] ∧
    (fakeDelete
        (FakeRepo.mk [(bookModel, [(.vint 0, mkEntity bookModel [("id_", .vint 0), ("name", .vstr "A")])])] [] [])
        (mkEntity bookModel [("id_", .vint 1), ("name", .vstr "Ghost")])).2 = Except.ok () :=
  ⟨rfl, rfl, rfl⟩

/-- C7 (amended): `delete` raises `EntityNotFoundError` iff the staged
view holds no entry for the entity's *model* at all; when the model entry
exists, `delete` succeeds whether or not the id is present — removing the
id's record if there is one (and leaving every other id untouched),
silently doing nothing otherwise. -/
theorem delete_raises_iff_model_absent :
    (∀ (st : FakeRepo) (e : Entity),
        isNotFound (fakeDelete st e).2 = true ↔
          alistLookup (hydratedStage st) e.model = none) ∧
    (∀ (st : FakeRepo) (e : Entity) (tbl : Table),
        alistLookup (hydratedStage st) e.model = some tbl →
        (tbl.map Prod.fst).Nodup →
        (fakeDelete st e).2 = Except.ok () ∧
        alistLookup ((alistLookup (fakeDelete st e).1.newEntities e.model).getD []) e.idVal = none ∧
        (∀ k, k ≠ e.idVal →
          alistLookup ((alistLookup (fakeDelete st e).1.newEntities e.model).getD []) k =
            alistLookup tbl k)) := by
  constructor
  · intro st e
    unfold fakeDelete
    cases h : alistLookup (hydratedStage st) e.model with
    | none => simp [isNotFound, h]
    | some tbl => simp [isNotFound, h]
  · intro st e tbl h hnodup
    have hres : fakeDelete st e =
        ({ st with newEntities :=
            alistInsert (hydratedStage st) e.model (alistRemoveKey tbl e.idVal) },
          Except.ok ()) := by
      unfold fakeDelete
      simp only [h]
    refine ⟨by rw [hres], ?_, ?_⟩
    · rw [hres]
      simp only
      rw [alistLookup_alistInsert_self]
      simp only [Option.getD_some]
      exact alistLookup_alistRemoveKey_self tbl e.idVal hnodup
    · intro k hk
      rw [hres]
      simp only
      rw [alistLookup_alistInsert_self]
      simp only [Option.getD_some]
      exact alistLookup_alistRemoveKey_ne tbl e.idVal k hk

/-- Witness for the amended C7 at a stage holding `Book` ids 0 and 1:
deleting id 1 succeeds, removes id 1 from the staged table and keeps
id 0. -/
theorem delete_raises_iff_model_absent_witness :
    (fakeDelete
        (FakeRepo.mk []
          [(bookModel, [(.vint 0, mkEntity bookModel [("id_", .vint 0), ("name", .vstr "A")]),
                        (.vint 1, mkEntity bookModel [("id_", .vint 1), ("name", .vstr "B")])])] [])
        (mkEntity bookModel [("id_", .vint 1), ("name", .vstr "B")])).2 = Except.ok () ∧
    alistLookup ((alistLookup
        (fakeDelete
          (FakeRepo.mk []
            [(bookModel, [(.vint 0, mkEntity bookModel [("id_", .vint 0), ("name", .vstr "A")]),
                          (.vint 1, mkEntity bookModel [("id_", .vint 1), ("name", .vstr "B")])])] [])
          (mkEntity bookModel [("id_", .vint 1), ("name", .vstr "B")])).1.newEntities
        bookModel).getD [])
      (mkEntity bookModel [("id_", .vint 1), ("name", .vstr "B")]).idVal = none := by
  have h := delete_raises_iff_model_absent.2
    (FakeRepo.mk []
      [(bookModel, [(.vint 0, mkEntity bookModel [("id_", .vint 0), ("name", .vstr "A")]),
                    (.vint 1, mkEntity bookModel [("id_", .vint 1), ("name", .vstr "B")])])] [])
    (mkEntity bookModel [("id_", .vint 1), ("name", .vstr "B")])
    [(.vint 0, mkEntity bookModel [("id_", .vint 0), ("name", .vstr "A")]),
     (.vint 1, mkEntity bookModel [("id_", .vint 1), ("name", .vstr "B")])]
    rfl (by decide)
  exact ⟨h.1, h.2.1⟩

/-- The committed entities matching the id, one per looked-up model whose
table holds it — the specification-side count for `get`. -/
def storedMatches (repo : OldFakeRepo) (id_ : Value) (ms : List Model) : List Entity :=
  ms.filterMap (fun m => (alistLookup repo.entities m).bind (fun t => alistLookup t id_))

theorem oldMatching_aux (repo : OldFakeRepo) (id_ : Value) (ms : List Model)
    (init : List Entity) :
    ms.foldl (fun acc m =>
      match (alistLookup repo.entities m).bind (fun t => alistLookup t id_) with
      | some e => acc ++ [e]
      | none => acc) init = init ++ storedMatches repo id_ ms := by
  induction ms generalizing init with
  | nil => simp [storedMatches]
  | cons m rest ih =>
      simp only [List.foldl, storedMatches, List.filterMap_cons]
      cases hf : (alistLookup repo.entities m).bind (fun t => alistLookup t id_) with
      | none => simp only [hf, ih, storedMatches]
      | some e =>
          simp only [hf, ih, storedMatches, List.append_assoc, List.singleton_append]

theorem oldMatching_eq (repo : OldFakeRepo) (id_ : Value) (ms : List Model) :
    oldMatching repo id_ ms = storedMatches repo id_ ms := by
  unfold oldMatching
  simpa using oldMatching_aux repo id_ ms []

/-- C8: the historical `FakeRepository.get` distinguishes absence from
ambiguity: zero matching entities raise `EntityNotFoundError`, exactly
one is returned, and two or more raise `TooManyEntitiesError` — never
`EntityNotFoundError`.  (The hypothesis rules out the degenerate call
`get(id_, [])` with an explicit empty model list differing from the
constructor's, where `_model_not_found` would crash indexing
`models[0]`.) -/
theorem get_absence_vs_ambiguity (repo : OldFakeRepo) (id_ : Value) (arg : ModelsArg)
    (hdeg : buildModels repo arg = [] → buildModels repo arg = repo.models) :
    (storedMatches repo id_ (buildModels repo arg) = [] →
        isNotFound (oldGet repo id_ arg) = true ∧ isTooMany (oldGet repo id_ arg) = false) ∧
    (∀ e, storedMatches repo id_ (buildModels repo arg) = [e] →
        oldGet repo id_ arg = Except.ok e) ∧
    (2 ≤ (storedMatches repo id_ (buildModels repo arg)).length →
        isTooMany (oldGet repo id_ arg) = true ∧ isNotFound (oldGet repo id_ arg) = false) := by
  have heq := oldMatching_eq repo id_ (buildModels repo arg)
  refine ⟨?_, ?_, ?_⟩
  · intro h0
    have hg : oldGet repo id_ arg =
        Except.error (oldModelNotFound repo (buildModels repo arg) (" with id " ++ id_.pyStr)) := by
      unfold oldGet
      rw [heq, h0]
    rw [hg]
    unfold oldModelNotFound
    by_cases h1 : buildModels repo arg = repo.models
    · simp [h1, isNotFound, isTooMany]
    · by_cases h2 : 0 < (buildModels repo arg).length
      · simp [h1, h2, isNotFound, isTooMany]
      · exfalso
        have hlen : (buildModels repo arg).length = 0 := by omega
        exact h1 (hdeg (List.length_eq_zero.mp hlen))
  · intro e he
    unfold oldGet
    rw [heq, he]
  · intro h2
    rcases hm : storedMatches repo id_ (buildModels repo arg) with _ | ⟨e1, rest⟩
    · rw [hm] at h2; simp at h2
    · rcases rest with _ | ⟨e2, rest2⟩
      · rw [hm] at h2; simp at h2
      · have hg : oldGet repo id_ arg =
            Except.error (.tooManyEntitiesError "More than one entity was found with the id") := by
          unfold oldGet
          rw [heq, hm]
        rw [hg]
        exact ⟨rfl, rfl⟩

/-- Witness for C8, mirroring the specification's scenario: with a `Book`
and a `Genre` sharing id 7, `get(7)` without a model raises
`TooManyEntitiesError`; `get("missing", Author)` raises
`EntityNotFoundError`. -/
theorem get_absence_vs_ambiguity_witness :
    isTooMany (oldGet
      (OldFakeRepo.mk [bookModel, genreModel]
        [(bookModel, [(.vint 7, mkEntity bookModel [("id_", .vint 7), ("name", .vstr "B")])]),
         (genreModel, [(.vint 7, mkEntity genreModel [("id_", .vint 7), ("name", .vstr "G")])])] [])
      (.vint 7) .noneArg) = true ∧
    isNotFound (oldGet
      (OldFakeRepo.mk [bookModel, genreModel]
        [(bookModel, [(.vint 7, mkEntity bookModel [("id_", .vint 7), ("name", .vstr "B")])]),
         (genreModel, [(.vint 7, mkEntity genreModel [("id_", .vint 7), ("name", .vstr "G")])])] [])
      (.vstr "missing") (.one authorModel)) = true := by
  constructor
  · exact (get_absence_vs_ambiguity
      (OldFakeRepo.mk [bookModel, genreModel]
        [(bookModel, [(.vint 7, mkEntity bookModel [("id_", .vint 7), ("name", .vstr "B")])]),
         (genreModel, [(.vint 7, mkEntity genreModel [("id_", .vint 7), ("name", .vstr "G")])])] [])
      (.vint 7) .noneArg (by decide)).2.2 (by decide) |>.1
  · exact (get_absence_vs_ambiguity
      (OldFakeRepo.mk [bookModel, genreModel]
        [(bookModel, [(.vint 7, mkEntity bookModel [("id_", .vint 7), ("name", .vstr "B")])]),
         (genreModel, [(.vint 7, mkEntity genreModel [("id_", .vint 7), ("name", .vstr "G")])])] [])
      (.vstr "missing") (.one authorModel) (by decide)).1 (by decide) |>.1

/-- C9 counterexample: `Cache.add` stores `entity.copy()`, a shallow
copy.  With the live `ListEntity`-style object at heap `[["a"]]`,
appending `"b"` to its list in place also changes the snapshot's view
from `("x", ["a"])` to `("x", ["a", "b"])` — so the snapshot does not
stay equal to the value the entity had when cached, as the claim
states. -/
theorem cache_snapshot_mutated_by_list_append :
    hview [["a"]] (HEntity.mk "x" 0) = ("x", ["a"]) ∧
    hCacheAdd none (HEntity.mk "x" 0) = some (HEntity.mk "x" 0) ∧
    hview (applyHMuts [["a"]] (HEntity.mk "x" 0) [HMut.listAppend "b"]).1 (HEntity.mk "x" 0) =
      ("x", ["a", "b"]) :=
  ⟨rfl, rfl, rfl⟩

theorem applyHMuts_heap_of_rebinds (h : ListHeap) (e : HEntity) (ms : List HMut)
    (hreb : ms.all isRebind = true) :
    (applyHMuts h e ms).1 = h := by
  induction ms generalizing h e with
  | nil => rfl
  | cons mu rest ih =>
      simp only [List.all_cons, Bool.and_eq_true] at hreb
      cases mu with
      | setName v => exact ih h { e with name := v } hreb.2
      | setElements a => exact ih h { e with elements := a } hreb.2
      | listAppend x => simp [isRebind] at hreb

/-- C9 (amended): the snapshot stored by `Cache.add` is a *shallow* copy:
it is immune to attribute rebinding on the live entity (any sequence of
`entity.attr = value` assignments leaves the snapshot's view exactly the
value the entity had when cached), but it shares the entity's mutable
list object, so an in-place list mutation is visible through the snapshot
(see the counterexample). -/
theorem cache_snapshot_immune_to_rebinds (h : ListHeap) (live : HEntity)
    (ms : List HMut) (hreb : ms.all isRebind = true) :
    ∀ snap, hCacheAdd none live = some snap →
      hview (applyHMuts h live ms).1 snap = hview h live := by
  intro snap hsnap
  have hs : snap = { name := live.name, elements := live.elements } := by
    simp only [hCacheAdd] at hsnap
    injection hsnap with hv
    exact hv.symm
  rw [applyHMuts_heap_of_rebinds h live ms hreb, hs]

/-- Witness for the amended C9: rebinding `name` and then `elements` on
the live entity leaves the snapshot's view at its add-time value. -/
theorem cache_snapshot_immune_to_rebinds_witness :
    hview (applyHMuts [["a"], ["c"]] (HEntity.mk "x" 0)
        [HMut.setName "y", HMut.setElements 1]).1 (HEntity.mk "x" 0) =
      hview [["a"], ["c"]] (HEntity.mk "x" 0) :=
  cache_snapshot_immune_to_rebinds [["a"], ["c"]] (HEntity.mk "x" 0)
    [HMut.setName "y", HMut.setElements 1] (by decide) (HEntity.mk "x" 0) rfl

